import Mathlib

/-!
Verification of the flashcard repository's crawl engine against its
natural-language specification.

The definitions below are a shallow embedding of the Python sources:

* `src/flashcard/citations.py` — `Paper` identifier validation and the
  identifier-keyed instance cache (`Paper.__new__` / `Paper.__init__`),
  and the `CiteManager` rate limiter (`_get` / `_manage_rate`);
* `src/flashcard/knowledge_database.py` — the SQLite-backed
  `PaperDatabase` / `UnifiedDatabase` batch insert methods and schema
  constraints;
* `src/flashcard/wiki_crawler.py` — `IntelligentWikiCrawler` priority,
  frontier queueing and crawl loop;
* `src/flashcard/crawler.py` — `Crawler` priority, citation queueing,
  crawl loop and pending-batch flushing.

Machine integers do not overflow in the modelled code paths (Python uses
arbitrary-precision integers), so `Nat`/`Int`/`ℚ` are used directly.
-/

set_option autoImplicit false

namespace Flashcard

/-! ## Identifier validation (citations.py, `Paper.regex` / `_val_id` / `_val_ids`) -/

/-- The six identifier types of `Paper.idtypes` (citations.py line 293). -/
inductive IdType where
  | doi | omid | openalex | pmid | isbn | arxiv
deriving DecidableEq, Repr

/-- `Paper.idtypes` in source order: `['doi','omid','openalex','pmid','isbn','arxiv']`. -/
def idtypesOrder : List IdType :=
  [.doi, .omid, .openalex, .pmid, .isbn, .arxiv]

/-- ASCII whitespace accepted by the regex class `\s`. -/
def isWs (c : Char) : Bool :=
  c = ' ' || c = '\t' || c = '\n' || c = '\r' || c = '\x0b' || c = '\x0c'

/-- Strip an exact (case-sensitive) literal from the front of a character list. -/
def stripLit : List Char → List Char → Option (List Char)
  | [], cs => some cs
  | _ :: _, [] => none
  | p :: ps, c :: cs => if c = p then stripLit ps cs else none

/-- Strip a literal from the front, comparing case-insensitively
(for patterns compiled with `re.IGNORECASE`). -/
def stripLitCI : List Char → List Char → Option (List Char)
  | [], cs => some cs
  | _ :: _, [] => none
  | p :: ps, c :: cs => if c.toLower = p.toLower then stripLitCI ps cs else none

/-- Body of the doi pattern `10\.\d{4,}/.+` under `fullmatch`.  The digit block
is necessarily the maximal digit run (a shorter run would leave a digit where
the regex requires `/`), and `.` excludes newlines. -/
def doiBody : List Char → Bool
  | '1' :: '0' :: '.' :: rest =>
    let ds := rest.takeWhile Char.isDigit
    let tl := rest.dropWhile Char.isDigit
    decide (4 ≤ ds.length) &&
      (match tl with
       | '/' :: t => (decide (t ≠ [])) && t.all (fun c => decide (c ≠ '\n'))
       | _ => false)
  | _ => false

/-- Body of the omid pattern `br/\d{6,12}` under `fullmatch`. -/
def omidBody : List Char → Bool
  | 'b' :: 'r' :: '/' :: ds =>
    ds.all Char.isDigit && decide (6 ≤ ds.length) && decide (ds.length ≤ 12)
  | _ => false

/-- Body of the openalex pattern `W\d{6,10}` under `fullmatch`. -/
def openalexBody : List Char → Bool
  | 'W' :: ds =>
    ds.all Char.isDigit && decide (6 ≤ ds.length) && decide (ds.length ≤ 10)
  | _ => false

/-- Body of the pmid pattern `\d{1,8}` under `fullmatch`. -/
def pmidBody (ds : List Char) : Bool :=
  ds.all Char.isDigit && decide (1 ≤ ds.length) && decide (ds.length ≤ 8)

/-- Body of the isbn pattern `\d{10,13}` under `fullmatch`. -/
def isbnBody (ds : List Char) : Bool :=
  ds.all Char.isDigit && decide (10 ≤ ds.length) && decide (ds.length ≤ 13)

/-- A character of the class `[a-z-]` under `re.IGNORECASE`. -/
def isAzHyphen (c : Char) : Bool := c.isAlpha || c = '-'

/-- Old-style arXiv identifier `[a-z-]+(?:\.[A-Z]{2})?/\d{7}` (capture group 1,
`re.IGNORECASE`).  The archive part cannot contain `/`, so the split at the
first slash is deterministic. -/
def arxivOldBody (cs : List Char) : Bool :=
  let pre := cs.takeWhile (fun c => decide (c ≠ '/'))
  let tl := cs.dropWhile (fun c => decide (c ≠ '/'))
  (match tl with
   | '/' :: ds => ds.all Char.isDigit && decide (ds.length = 7)
   | _ => false) &&
  (let p1 := pre.takeWhile (fun c => decide (c ≠ '.'))
   let p2 := pre.dropWhile (fun c => decide (c ≠ '.'))
   (decide (p1 ≠ [])) && p1.all isAzHyphen &&
   (match p2 with
    | [] => true
    | '.' :: q => q.all Char.isAlpha && decide (q.length = 2)
    | _ => false))

/-- New-style arXiv identifier `\d{4}\.\d{4,5}(?:v\d+)?` (capture group 2,
`re.IGNORECASE`). -/
def arxivNewBody (cs : List Char) : Bool :=
  let d1 := cs.takeWhile Char.isDigit
  let tl := cs.dropWhile Char.isDigit
  decide (d1.length = 4) &&
  (match tl with
   | '.' :: rest =>
     let d2 := rest.takeWhile Char.isDigit
     let vp := rest.dropWhile Char.isDigit
     decide (4 ≤ d2.length) && decide (d2.length ≤ 5) &&
     (match vp with
      | [] => true
      | v :: ds => (v.toLower = 'v') && ds.all Char.isDigit && decide (ds ≠ []))
   | _ => false)

/-- The arXiv pattern ends in `(?:\s|$)`: under `fullmatch` the identifier core
is the whole remainder or the remainder minus one trailing whitespace char. -/
def arxivCore (cs : List Char) : List Char :=
  match cs.getLast? with
  | some c => if isWs c then cs.dropLast else cs
  | none => cs

/-- `Paper._val_id` (citations.py lines 435-446): validate a string against the
pattern for one identifier type and return the canonical capture-group text.
The optional `<type>:` literal cannot overlap a valid body for any of the six
patterns, so the prefix handling is deterministic.  For new-style arXiv ids the
Python code returns `match.groups()[0]`, which is `None` (group 1 did not
participate); every caller treats that exactly like a failed validation, so it
is modelled as `none`. -/
def valId (t : IdType) (s : String) : Option String :=
  let cs := s.toList
  let tryWith (strip : Option (List Char)) (body : List Char → Bool) : Option (List Char) :=
    match strip with
    | some rest => if body rest then some rest else none
    | none => none
  let r : Option (List Char) :=
    match t with
    | .doi =>
      (tryWith (stripLitCI "doi:".toList cs) doiBody).orElse
        (fun _ => tryWith (some cs) doiBody)
    | .omid =>
      (tryWith (stripLit "omid:".toList cs) omidBody).orElse
        (fun _ => tryWith (some cs) omidBody)
    | .openalex =>
      (tryWith (stripLit "openalex:".toList cs) openalexBody).orElse
        (fun _ => tryWith (some cs) openalexBody)
    | .pmid =>
      (tryWith (stripLit "pmid:".toList cs) pmidBody).orElse
        (fun _ => tryWith (some cs) pmidBody)
    | .isbn =>
      (tryWith (stripLit "isbn:".toList cs) isbnBody).orElse
        (fun _ => tryWith (some cs) isbnBody)
    | .arxiv =>
      let after :=
        match stripLitCI "arxiv:".toList cs with
        | some rest => rest
        | none => cs
      let core := arxivCore after
      -- only the old-style alternative populates capture group 1
      if arxivOldBody core then some core else none
  r.map (fun l => String.mk l)

/-- `Paper._val_ids` (citations.py lines 448-457): try each identifier type in
`Paper.idtypes` order and return the first (type, canonical id) hit.  The
new-style-arXiv `None`-group quirk is observationally `none` here as well,
since arXiv is the last type tried and every caller guards on truthiness. -/
def valIds (s : String) : Option (IdType × String) :=
  idtypesOrder.findSome? (fun t => (valId t s).map (fun n => (t, n)))

/-! ## Paper instance cache (citations.py, `Paper.__new__` / `Paper.__init__`) -/

/-- The class-level `Paper._instances` dict together with a counter supplying
fresh instance identities (distinct `Nat`s stand for distinct Python objects). -/
structure Registry where
  instances : List (String × Nat)
  nextInst : Nat
deriving DecidableEq, Repr

/-- The empty cache at interpreter startup. -/
def Registry.empty : Registry := ⟨[], 0⟩

/-- Dict update `m[k] = v`: replace the value of an existing key in place,
otherwise append (Python dicts keep first-insertion order). -/
def assocSet : List (String × Nat) → String → Nat → List (String × Nat)
  | [], k, v => [(k, v)]
  | (k0, v0) :: rest, k, v =>
    if k0 = k then (k, v) :: rest else (k0, v0) :: assocSet rest k v

/-- Dict lookup `k in m` / `m[k]`. -/
def regFind (m : List (String × Nat)) (k : String) : Option Nat :=
  (m.find? (fun p => p.1 = k)).map (fun p => p.2)

/-- Dict update for the local `good_typedids` dict (keyed by identifier type). -/
def goodSet : List (IdType × String) → IdType → String → List (IdType × String)
  | [], t, v => [(t, v)]
  | (t0, v0) :: rest, t, v =>
    if t0 = t then (t, v) :: rest else (t0, v0) :: goodSet rest t v

/-- First loop of `Paper.__new__` (citations.py lines 314-322) over the keyword
arguments: validate, return an already-cached instance on a canonical-form hit,
otherwise record the RAW string under its type in `good_typedids`. -/
def newLoop1 : List (IdType × String) → List (IdType × String) → Registry →
    Sum Nat (List (IdType × String))
  | [], good, _ => .inr good
  | (t, raw) :: rest, good, st =>
    match valId t raw with
    | none => newLoop1 rest good st
    | some canon =>
      match regFind st.instances canon with
      | some inst => .inl inst
      | none => newLoop1 rest (goodSet good t raw) st

/-- Second loop of `Paper.__new__` (citations.py lines 324-332) over the
positional arguments: validate, return a cached instance on a hit, otherwise
record the CANONICAL string under its inferred type. -/
def newLoop2 : List String → List (IdType × String) → Registry →
    Sum Nat (List (IdType × String))
  | [], good, _ => .inr good
  | s :: rest, good, st =>
    match valIds s with
    | none => newLoop2 rest good st
    | some (t, canon) =>
      match regFind st.instances canon with
      | some inst => .inl inst
      | none => newLoop2 rest (goodSet good t canon) st

/-- Creation of a fresh instance (citations.py lines 334-342 and the
`__init__` registration loop, lines 359-361): the accumulated `good_typedids`
values are cached, then `__init__` additionally caches every keyword-argument
string raw and unvalidated (`type(self)._instances[_id] = self`). -/
def paperCreate (st : Registry) (good kwargs : List (IdType × String)) :
    Registry × Nat :=
  let fresh := st.nextInst
  let m1 := good.foldl (fun m p => assocSet m p.2 fresh) st.instances
  let m2 := kwargs.foldl (fun m p => assocSet m p.2 fresh) m1
  (⟨m2, fresh + 1⟩, fresh)

/-- A full `Paper(...)` construction: `__new__` (both loops, with early return
of a cached instance) followed by `__init__`.  `kwargs` holds the
identifier-typed keyword arguments in order, `ids` the positional strings.
Returns the updated cache and the identity of the resulting instance. -/
def paperCall (kwargs : List (IdType × String)) (ids : List String)
    (st : Registry) : Registry × Nat :=
  match newLoop1 kwargs [] st with
  | .inl inst => (st, inst)
  | .inr g1 =>
    match newLoop2 ids g1 st with
    | .inl inst => (st, inst)
    | .inr g2 => paperCreate st g2 kwargs

/-- The instance cache after a sequence of `Paper(...)` constructions within
one session, each call given as (identifier keyword arguments, positional
strings). -/
def paperCalls (calls : List (List (IdType × String) × List String))
    (st : Registry) : Registry :=
  calls.foldl (fun acc c => (paperCall c.1 c.2 acc).1) st

/-! ## Rate-limited client (citations.py, `CiteManager.__init__` / `_get` / `_manage_rate`) -/

/-- `self.rate_window = 10*60` seconds (citations.py line 31).  Request
timestamps are stored as `int(t1)`, hence `Int`. -/
def rateWindow : Int := 10 * 60

/-- `self.rate_max = 0.9` requests/second (citations.py line 32). -/
def rateMax : ℚ := 9 / 10

/-- `self.min_wait = 1.1` seconds (citations.py line 33). -/
def minWait : ℚ := 11 / 10

/-- The rate-tracking fields of `CiteManager`: `nrequests` and
`request_times` (citations.py lines 41-42; `requests_per_s` is derived as
`nrequests / rate_window` and carried implicitly). -/
structure RateState where
  nrequests : Nat
  times : List Int
deriving DecidableEq, Repr

/-- State after `CiteManager.__init__`: `nrequests = 0`, `request_times = []`. -/
def RateState.init : RateState := ⟨0, []⟩

/-- Eviction `[rt for rt in self.request_times if rt > cutoff_time]`. -/
def evictOld (ts : List Int) (cutoff : Int) : List Int :=
  ts.filter (fun rt => decide (cutoff < rt))

/-- The `while self.requests_per_s > self.rate_max` backoff loop of
`_manage_rate` (citations.py lines 108-118).  Each iteration sleeps and
re-evicts with the wall-clock time observed after the sleep; those observed
times are supplied as the oracle list `clock`.  If the oracle is exhausted
while the rate is still above the ceiling the remaining (physically
inevitable) iterations are not modelled; every theorem below only exercises
states whose rate is already below the ceiling, where the loop body never
runs at all. -/
def manageLoop : List Int → List Int → List Int
  | [], ts => ts
  | c :: clock, ts =>
    if rateMax < (ts.length : ℚ) / (rateWindow : ℚ) then
      manageLoop clock (evictOld ts (c - rateWindow))
    else ts

/-- `CiteManager._manage_rate(t)` (citations.py lines 94-118): append the
timestamp, evict entries older than the window, recompute `nrequests`, then
run the backoff loop. -/
def manageRate (st : RateState) (t : Int) (clock : List Int) : RateState :=
  let ts1 := evictOld (st.times ++ [t]) (t - rateWindow)
  let ts2 := manageLoop clock ts1
  ⟨ts2.length, ts2⟩

/-- The rate-management portion of `CiteManager._get` (citations.py lines
88-90): `_manage_rate(int(t1))` runs only when `self.nrequests % 5 == 0`. -/
def getStep (st : RateState) (t1 : Int) (clock : List Int) : RateState :=
  if st.nrequests % 5 = 0 then manageRate st t1 clock else st

/-- The rate state after a sequence of `_get` calls from a fresh
`CiteManager`; each call supplies its completion timestamp `int(t1)` and its
backoff-loop clock oracle. -/
def getTrace (calls : List (Int × List Int)) : RateState :=
  calls.foldl (fun st c => getStep st c.1 c.2) RateState.init

/-- The minimum-spacing sleep of `CiteManager._get` (citations.py line 84):
`sleep_time = max(self.min_wait - dt, 0)`. -/
def sleepTime (dt : ℚ) : ℚ := max (minWait - dt) 0

/-- Earliest instant at which the next request can start: the current request
ran during `[t0, t0+dt]` and `_get` then sleeps `sleepTime dt` before
returning to its caller. -/
def nextEarliestStart (t0 dt : ℚ) : ℚ := t0 + dt + sleepTime dt

/-! ## Persistent store (knowledge_database.py, `PaperDatabase` / `UnifiedDatabase`)

The `papers` schema (init_database, lines 162-225) gives every identifier
column its own slot; partial unique indexes exist ONLY for `doi`, `pmid` and
`openalex` (lines 207-209, `WHERE <col> IS NOT NULL`).  Metadata columns
(title, authors, timestamps, metrics, flags) carry no constraints and play no
role in any insert/conflict path, so the row model keeps the six identifier
columns and the autoincrement id. -/

/-- One record of an `insert_paper_batch` input dict, after the `identifiers`
cleaning step (lines 271-281): absent or `None` identifiers are `none`. -/
structure PaperRec where
  doi : Option String
  pmid : Option String
  openalex : Option String
  omid : Option String
  isbn : Option String
  arxiv : Option String
deriving DecidableEq, Repr

/-- The all-`none` record, for building concrete inputs. -/
def PaperRec.blank : PaperRec := ⟨none, none, none, none, none, none⟩

/-- One row of the `papers` table. -/
structure PaperRow where
  rid : Nat
  doi : Option String
  pmid : Option String
  openalex : Option String
  omid : Option String
  isbn : Option String
  arxiv : Option String
deriving DecidableEq, Repr

/-- The `papers` table: rows in insertion (rowid) order plus the next
AUTOINCREMENT id. -/
structure PapersTable where
  rows : List PaperRow
  nextId : Nat
deriving DecidableEq, Repr

/-- A freshly initialised database (SQLite AUTOINCREMENT starts at 1). -/
def PapersTable.empty : PapersTable := ⟨[], 1⟩

/-- SQL equality of two nullable identifier values: `NULL` never equals
anything (this is why the partial unique indexes admit many NULLs). -/
def matchOn (a b : Option String) : Bool :=
  match a, b with
  | some x, some y => decide (x = y)
  | _, _ => false

/-- Whether inserting `r` raises `sqlite3.IntegrityError`: some existing row
collides on one of the three uniquely-indexed columns doi/pmid/openalex. -/
def uniqueConflict (st : PapersTable) (r : PaperRec) : Bool :=
  st.rows.any (fun row =>
    matchOn r.doi row.doi || matchOn r.pmid row.pmid ||
      matchOn r.openalex row.openalex)

/-- One probe of `_get_paper_id_by_identifier_fast` (lines 384-396) for ONE
identifier type: skipped when the record's value is missing or falsy (the
Python guard is `if paper_data.get(id_type):`, so the empty string is
skipped too); otherwise the first row in scan order with that column value. -/
def probeId (rows : List PaperRow) (v : Option String)
    (get : PaperRow → Option String) : Option Nat :=
  match v with
  | none => none
  | some x =>
    if x = "" then none
    else (rows.find? (fun row => get row = some x)).map (fun row => row.rid)

/-- `_get_paper_id_by_identifier_fast` (lines 384-396): try the identifier
types in the priority order `['doi','pmid','openalex','omid','isbn','arxiv']`
and return the first hit. -/
def getPaperIdFast (rows : List PaperRow) (r : PaperRec) : Option Nat :=
  (probeId rows r.doi (fun row => row.doi)).orElse fun _ =>
  (probeId rows r.pmid (fun row => row.pmid)).orElse fun _ =>
  (probeId rows r.openalex (fun row => row.openalex)).orElse fun _ =>
  (probeId rows r.omid (fun row => row.omid)).orElse fun _ =>
  (probeId rows r.isbn (fun row => row.isbn)).orElse fun _ =>
  probeId rows r.arxiv (fun row => row.arxiv)

/-- Build the inserted row from a record. -/
def mkRow (rid : Nat) (r : PaperRec) : PaperRow :=
  ⟨rid, r.doi, r.pmid, r.openalex, r.omid, r.isbn, r.arxiv⟩

/-- The per-record body of the `insert_paper_batch` loop (lines 268-330):
`INSERT` succeeds and yields `cursor.lastrowid` unless a unique index fires,
in which case the state is untouched (the failed `INSERT` has no effect) and
the existing id is looked up. -/
def insertPaperStep (st : PapersTable) (r : PaperRec) :
    PapersTable × Option Nat :=
  if uniqueConflict st r then (st, getPaperIdFast st.rows r)
  else (⟨st.rows ++ [mkRow st.nextId r], st.nextId + 1⟩, some st.nextId)

/-- A per-record loop shared by the three batch-insert methods: thread the
table state through the record steps, collecting one result per record. -/
def dbRun {σ α : Type} (step : σ → α → σ × Option Nat) :
    σ → List α → σ × List (Option Nat)
  | st, [] => (st, [])
  | st, r :: rest =>
    let s1 := step st r
    let s2 := dbRun step s1.1 rest
    (s2.1, s1.2 :: s2.2)

/-- The `insert_paper_batch` loop over the whole batch, threading the table
state and collecting per-record results in order. -/
def paperRun : PapersTable → List PaperRec → PapersTable × List (Option Nat) :=
  dbRun insertPaperStep

/-- `PaperDatabase.insert_paper_batch` (lines 248-338).  `txFail` models a
failure of the surrounding transaction (the outer `except` at lines 335-338):
the whole batch is rolled back — the table is unchanged — and the method
catches the error and returns `[None] * len(papers_data)` instead of
raising. -/
def insertPaperBatch (txFail : Bool) (st : PapersTable)
    (batch : List PaperRec) : PapersTable × List (Option Nat) :=
  if txFail then (st, List.replicate batch.length none)
  else paperRun st batch

/-- One row of the `citations` table (`oci TEXT UNIQUE NOT NULL`, foreign
keys to paper rowids; init_database lines 195-204). -/
structure CitRow where
  cid : Nat
  oci : String
  citing : Nat
  cited : Nat
deriving DecidableEq, Repr

/-- The `citations` table. -/
structure CitTable where
  rows : List CitRow
  nextId : Nat
deriving DecidableEq, Repr

/-- A freshly initialised citations table. -/
def CitTable.empty : CitTable := ⟨[], 1⟩

/-- The `oci` column, in row order. -/
def ocis (t : CitTable) : List String := t.rows.map (fun row => row.oci)

/-- `total_citations` of `get_statistics` (line 595-596): `COUNT(*)` over
the citations table. -/
def totalCitations (t : CitTable) : Nat := t.rows.length

/-- The per-record body of the `insert_citations_batch` loop (lines 360-374):
the `UNIQUE` constraint on `oci` turns a duplicate into a caught
`IntegrityError`, appending `None` and leaving the table untouched. -/
def insertCitationStep (t : CitTable) (r : String × Nat × Nat) :
    CitTable × Option Nat :=
  if r.1 ∈ ocis t then (t, none)
  else (⟨t.rows ++ [⟨t.nextId, r.1, r.2.1, r.2.2⟩], t.nextId + 1⟩, some t.nextId)

/-- The `insert_citations_batch` loop over the whole batch. -/
def citRun : CitTable → List (String × Nat × Nat) → CitTable × List (Option Nat) :=
  dbRun insertCitationStep

/-- `PaperDatabase.insert_citations_batch` (lines 340-382), with the outer
transaction-failure `except` (lines 379-382) modelled as for papers. -/
def insertCitationsBatch (txFail : Bool) (t : CitTable)
    (batch : List (String × Nat × Nat)) : CitTable × List (Option Nat) :=
  if txFail then (t, List.replicate batch.length none)
  else citRun t batch

/-- One input record of `insert_wiki_page_batch`.  Of the `wiki_pages`
columns only `title TEXT UNIQUE NOT NULL` (lines 759, 817) constrains the
insert; the content/metric columns are unconstrained payload and are not
modelled.  `page_data.get('title')` may be `None`. -/
structure WikiRec where
  title : Option String
deriving DecidableEq, Repr

/-- One row of the `wiki_pages` table (`NOT NULL` means a stored title is
always present). -/
structure WikiRow where
  rid : Nat
  title : String
deriving DecidableEq, Repr

/-- The `wiki_pages` table. -/
structure WikiTable where
  rows : List WikiRow
  nextId : Nat
deriving DecidableEq, Repr

/-- A freshly initialised wiki_pages table. -/
def WikiTable.empty : WikiTable := ⟨[], 1⟩

/-- The per-record body of the `insert_wiki_page_batch` loop (lines 842-885):
a `None` title violates `NOT NULL`, and the recovery `SELECT id ... WHERE
title = ?` then matches nothing (`NULL = NULL` is not true in SQL), yielding
`None`; a duplicate title violates `UNIQUE` and the recovery returns the
existing row's id. -/
def insertWikiStep (t : WikiTable) (r : WikiRec) : WikiTable × Option Nat :=
  match r.title with
  | none => (t, none)
  | some ttl =>
    match t.rows.find? (fun row => row.title = ttl) with
    | some row => (t, some row.rid)
    | none => (⟨t.rows ++ [⟨t.nextId, ttl⟩], t.nextId + 1⟩, some t.nextId)

/-- The `insert_wiki_page_batch` loop over the whole batch. -/
def wikiRun : WikiTable → List WikiRec → WikiTable × List (Option Nat) :=
  dbRun insertWikiStep

/-- `UnifiedDatabase.insert_wiki_page_batch` (lines 830-893), with the outer
transaction-failure `except` (lines 890-893) modelled as for papers. -/
def insertWikiPageBatch (txFail : Bool) (t : WikiTable)
    (batch : List WikiRec) : WikiTable × List (Option Nat) :=
  if txFail then (t, List.replicate batch.length none)
  else wikiRun t batch

/-! ## Wikipedia crawler (wiki_crawler.py, `IntelligentWikiCrawler`)

The frontier `priority_queue` is a Python `heapq` min-heap of tuples
`(priority, page_name, depth)`; tuples compare lexicographically, and
`heappop` returns the least element.  The heap is therefore modelled as the
multiset of its entries, with pop = minimum. -/

/-- A frontier entry `(priority, page_name, depth)`. -/
abbrev WEntry := Int × String × Nat

/-- Lexicographic tuple comparison as Python performs it on heap entries. -/
def wLt (a b : WEntry) : Bool :=
  decide (a.1 < b.1) ||
    (decide (a.1 = b.1) &&
      (decide (a.2.1 < b.2.1) ||
        (decide (a.2.1 = b.2.1) && decide (a.2.2 < b.2.2))))

/-- The least entry of the heap — what the next `heappop` returns. -/
def heapMin? (l : List WEntry) : Option WEntry :=
  match l with
  | [] => none
  | x :: xs => some (xs.foldl (fun m e => if wLt e m then e else m) x)

/-- `heappop`: remove and return the least entry. -/
def heapPopW (l : List WEntry) : Option (WEntry × List WEntry) :=
  match heapMin? l with
  | none => none
  | some m => some (m, l.erase m)

/-- Lookup in the `link_references` Counter (missing key counts 0). -/
def refGet (refs : List (String × Nat)) (k : String) : Nat :=
  match refs.find? (fun p => p.1 = k) with
  | some p => p.2
  | none => 0

/-- Counter increment `self.link_references[link_name] += 1`. -/
def refBump : List (String × Nat) → String → List (String × Nat)
  | [], k => [(k, 1)]
  | (k0, v0) :: rest, k =>
    if k0 = k then (k0, v0 + 1) :: rest else (k0, v0) :: refBump rest k

/-- `IntelligentWikiCrawler.calculate_priority` (wiki_crawler.py lines
60-72): `priority = reference_count - depth * 10`, returned negated for the
min-heap. -/
def calcPriorityW (refs : List (String × Nat)) (page : String)
    (depth : Nat) : Int :=
  -(((refGet refs page : Int)) - (depth : Int) * 10)

/-- Whether a link name contains a colon (`':' in link_name` skips special
pages). -/
def hasColon (s : String) : Bool := s.toList.any (fun c => c = ':')

/-- The reference-count update loop of `crawl_page` (lines 116-126): every
internal link without a colon bumps its counter. -/
def bumpAllRefs (refs : List (String × Nat)) (links : List String) :
    List (String × Nat) :=
  links.foldl (fun acc l => if hasColon l then acc else refBump acc l) refs

/-- The link-queueing block of `crawl_page` (lines 131-149): only when
`depth < max_depth`, push each of the first 20 links that is not processed,
not special, and not already in the (live, growing) queue, at `depth + 1`
with priority computed from the updated reference counts. -/
def wikiQueueLinks (links processed : List String)
    (refs : List (String × Nat)) (queue : List WEntry)
    (depth maxDepth : Nat) : List WEntry :=
  if depth < maxDepth then
    (links.take 20).foldl
      (fun q link =>
        if link ∉ processed && !hasColon link &&
            q.all (fun e => decide (e.2.1 ≠ link)) then
          q ++ [(calcPriorityW refs link (depth + 1), link, depth + 1)]
        else q)
      queue
  else queue

/-- The in-memory crawl state of `IntelligentWikiCrawler` used by the claims:
frontier, processed set, reference counter, and the statistics counters
touched by `crawl_page`. -/
structure WikiCrawl where
  queue : List WEntry
  processed : List String
  linkRefs : List (String × Nat)
  pagesProcessed : Nat
  pagesSkipped : Nat
  nonScientific : Nat
deriving DecidableEq, Repr

/-- Outcome of the fetch/parse/classify part of one `crawl_page` call,
supplied as an oracle: an exception anywhere in the `try` block, a page
rejected by the scientific filter, or a kept page with its internal links. -/
inductive PageOutcome where
  | err
  | nonsci
  | sci (links : List String)
deriving DecidableEq, Repr

/-- `IntelligentWikiCrawler.crawl_page` (lines 74-156) minus I/O: on an
exception the `except` arm (lines 153-156) bumps `pages_skipped` and returns
`None`; a non-scientific page bumps its counters and returns `None` before
any link is queued; a kept page bumps reference counts for all links, then
queues eligible links subject to the depth ceiling.  The returned flag is
whether page data (non-`None`) was returned. -/
def crawlPageW (st : WikiCrawl) (outcome : PageOutcome) (depth maxDepth : Nat) :
    WikiCrawl × Bool :=
  match outcome with
  | .err => ({ st with pagesSkipped := st.pagesSkipped + 1 }, false)
  | .nonsci =>
    ({ st with nonScientific := st.nonScientific + 1,
               pagesSkipped := st.pagesSkipped + 1 }, false)
  | .sci links =>
    let refs1 := bumpAllRefs st.linkRefs links
    let queue1 := wikiQueueLinks links st.processed refs1 st.queue depth maxDepth
    ({ st with linkRefs := refs1, queue := queue1,
               pagesProcessed := st.pagesProcessed + 1 }, true)

/-- One iteration of the `crawl_continuously` loop body (lines 184-197): pop
the least entry; skip it if already processed; otherwise run `crawl_page`
and then — unconditionally, whatever `crawl_page` returned — add the page
name to `processed_pages` (line 197). -/
def wikiLoopIter (st : WikiCrawl) (outcome : PageOutcome) (maxDepth : Nat) :
    WikiCrawl :=
  match heapPopW st.queue with
  | none => st
  | some (e, rest) =>
    let st1 := { st with queue := rest }
    if e.2.1 ∈ st.processed then st1
    else
      let st2 := (crawlPageW st1 outcome e.2.2 maxDepth).1
      { st2 with processed := st2.processed ++ [e.2.1] }

/-! ## Citation crawler (crawler.py, `Crawler`)

The frontier holds `(priority, paper_id, paper)` with the live `Paper`
object as third component; entry comparison falls back to `Paper.__lt__`
(strength) when priority and id tie. -/

/-- The data of a `Paper` object as the crawler consumes it: `pid` is the
value of `paper.get_id()` (its first identifier in `Paper.idtypes` priority
order), `cols` the column dict `_paper_to_dict` produces for it, and the
metric attributes used for priorities and ordering. -/
structure CPaper where
  pid : String
  cols : PaperRec
  nciting : Nat
  ncited : Nat
  strength : ℚ
deriving DecidableEq, Repr

/-- A frontier entry `(priority, paper_id, paper)`. -/
abbrev CEntry := Int × String × CPaper

/-- Python tuple comparison on crawler heap entries (`Paper.__lt__` compares
strengths). -/
def cLt (a b : CEntry) : Bool :=
  decide (a.1 < b.1) ||
    (decide (a.1 = b.1) &&
      (decide (a.2.1 < b.2.1) ||
        (decide (a.2.1 = b.2.1) && decide (a.2.2.strength < b.2.2.strength))))

/-- The least crawler heap entry. -/
def heapMinC? (l : List CEntry) : Option CEntry :=
  match l with
  | [] => none
  | x :: xs => some (xs.foldl (fun m e => if cLt e m then e else m) x)

/-- `heappop` on the crawler frontier. -/
def heapPopC (l : List CEntry) : Option (CEntry × List CEntry) :=
  match heapMinC? l with
  | none => none
  | some m => some (m, l.erase m)

/-- `Crawler.calculate_priority` (crawler.py lines 126-134):
`priority = reference_count + nciting + ncited - depth * 50`, negated. -/
def calcPriorityC (refs : List (String × Nat)) (p : CPaper) (depth : Nat) : Int :=
  -(((refGet refs p.pid : Int)) + (p.nciting : Int) + (p.ncited : Int) -
      (depth : Int) * 50)

/-- The crawler state threaded through `queue_citations_for_batch` and the
crawl loop: frontier, processed ids, reference counter, the two pending
batch buffers, and the statistics counters the claims mention. -/
structure CCrawl where
  queue : List CEntry
  processed : List String
  refs : List (String × Nat)
  pendingPapers : List PaperRec
  pendingCitations : List (String × String × String)
  dbBatches : Nat
deriving DecidableEq, Repr

/-- The body of the `queue_citations_for_batch` loop (crawler.py lines
191-221) for one `(citation_oci, cited_paper, citing_paper)` triple: bump
both endpoints' reference counts, append both column dicts to
`pending_papers` and the oci triple to `pending_citations`, then stage each
endpoint for the frontier if it is unprocessed, within the depth limit
(`depth <= self.max_depth`), and not already in the pre-existing frontier
(the membership check reads `self.priority_queue`, which only grows after
the loop). -/
def queueCitStep (origQueue : List CEntry) (processed : List String)
    (depth maxDepth : Nat)
    (acc : (List (String × Nat) × List PaperRec ×
            List (String × String × String) × List CEntry))
    (c : String × CPaper × CPaper) :
    (List (String × Nat) × List PaperRec ×
     List (String × String × String) × List CEntry) :=
  let cited := c.2.1
  let citing := c.2.2
  let refs1 := refBump (refBump acc.1 cited.pid) citing.pid
  let pend1 := acc.2.1 ++ [cited.cols, citing.cols]
  let pendC1 := acc.2.2.1 ++ [(c.1, citing.pid, cited.pid)]
  let stage := fun (newQ : List CEntry) (p : CPaper) =>
    if p.pid ∉ processed && decide (depth ≤ maxDepth) &&
        origQueue.all (fun e => decide (e.2.1 ≠ p.pid)) then
      newQ ++ [(calcPriorityC refs1 p depth, p.pid, p)]
    else newQ
  (refs1, pend1, pendC1, stage (stage acc.2.2.2 cited) citing)

/-- `Crawler.queue_citations_for_batch` (crawler.py lines 187-227): run the
loop over the batch, then push every staged entry onto the frontier. -/
def queueCitationsForBatch (st : CCrawl)
    (citations : List (String × CPaper × CPaper)) (depth maxDepth : Nat) :
    CCrawl :=
  let r := citations.foldl
    (queueCitStep st.queue st.processed depth maxDepth)
    (st.refs, st.pendingPapers, st.pendingCitations, [])
  { st with refs := r.1, pendingPapers := r.2.1,
            pendingCitations := r.2.2.1, queue := st.queue ++ r.2.2.2 }

/-- One iteration of the `crawl_network` loop body (crawler.py lines
361-378): pop the least entry; skip if already processed; otherwise run
`crawl_paper` — a success queues the found citations at `depth + 1` and adds
the paper id to `processed_paper_ids`, while an exception is caught inside
`crawl_paper` (lines 183-185), which returns `False`, so the id is NOT
added.  `outcome` supplies the fetch result: `none` for a failure, `some
citations` for a success. -/
def crawlerLoopIter (st : CCrawl)
    (outcome : Option (List (String × CPaper × CPaper)))
    (depth maxDepth : Nat) : CCrawl :=
  match heapPopC st.queue with
  | none => st
  | some (e, rest) =>
    let st1 := { st with queue := rest }
    if e.2.1 ∈ st.processed then st1
    else
      match outcome with
      | none => st1
      | some citations =>
        let st2 := queueCitationsForBatch st1 citations (depth + 1) maxDepth
        { st2 with processed := st2.processed ++ [e.2.1] }

/-- The in-batch doi dedup of `process_pending_batches` (crawler.py lines
246-255): keep the first record for each truthy doi, and keep every record
whose doi is absent (or falsy). -/
def dedupByDoi (ps : List PaperRec) : List PaperRec :=
  (ps.foldl
    (fun (acc : List PaperRec × List String) p =>
      match p.doi with
      | some d =>
        if d ≠ "" then
          if d ∈ acc.2 then acc else (acc.1 ++ [p], acc.2 ++ [d])
        else (acc.1 ++ [p], acc.2)
      | none => (acc.1 ++ [p], acc.2))
    ([], [])).1

/-- The paper half of `Crawler.process_pending_batches` (crawler.py lines
242-259): once the pending buffer reaches `paper_batch_size`, dedup it,
hand it to `insert_paper_batch` — whose return value is discarded — bump the
batch counter and clear the buffer.  Nothing inspects success or failure of
the insert. -/
def processPendingPapers (batchSize : Nat) (st : CCrawl) (db : PapersTable)
    (txFail : Bool) : CCrawl × PapersTable :=
  if batchSize ≤ st.pendingPapers.length then
    let db1 := (insertPaperBatch txFail db (dedupByDoi st.pendingPapers)).1
    ({ st with pendingPapers := [], dbBatches := st.dbBatches + 1 }, db1)
  else (st, db)

/-- The content of the three partial unique indexes of the `papers` schema
(init_database lines 207-209): no two rows share a non-NULL `doi`, `pmid` or
`openalex` value. -/
def rowsOk : List PaperRow → Bool
  | [] => true
  | r :: rest =>
    rest.all (fun s =>
      !matchOn r.doi s.doi && !matchOn r.pmid s.pmid &&
        !matchOn r.openalex s.openalex) &&
    rowsOk rest

/-! ## Helper lemmas -/

theorem dbRun_length {σ α : Type} (step : σ → α → σ × Option Nat)
    (st : σ) (l : List α) : (dbRun step st l).2.length = l.length := by
  induction l generalizing st with
  | nil => rfl
  | cons r rest ih => simp [dbRun, ih]

theorem dbRun_append {σ α : Type} (step : σ → α → σ × Option Nat)
    (st : σ) (xs ys : List α) :
    dbRun step st (xs ++ ys) =
      ((dbRun step (dbRun step st xs).1 ys).1,
        (dbRun step st xs).2 ++ (dbRun step (dbRun step st xs).1 ys).2) := by
  induction xs generalizing st with
  | nil => simp [dbRun]
  | cons r rest ih => simp [dbRun, ih]

theorem dbRun_get? {σ α : Type} (step : σ → α → σ × Option Nat)
    (st : σ) (l : List α) (i : Nat) (r : α) (h : l.get? i = some r) :
    (dbRun step st l).2.get? i =
      some (step (dbRun step st (l.take i)).1 r).2 := by
  have hi : i < l.length := (List.get?_eq_some.mp h).1
  have hsplit : l = l.take i ++ l.drop i := (List.take_append_drop i l).symm
  have hdrop : l.drop i = r :: l.drop (i + 1) := by
    rw [List.drop_eq_getElem_cons hi]
    have h2 : some l[i] = some r := by
      rw [← List.getElem?_eq_getElem hi, ← List.get?_eq_getElem?]
      exact h
    rw [Option.some_inj.mp h2]
  have hlen : (dbRun step st (l.take i)).2.length = i := by
    rw [dbRun_length, List.length_take]
    omega
  conv in dbRun step st l => rw [hsplit]
  rw [dbRun_append, hdrop]
  simp only [dbRun]
  rw [List.get?_eq_getElem?, List.getElem?_append_right (by omega)]
  simp [hlen]

theorem citRun_length (t : CitTable) (l : List (String × Nat × Nat)) :
    (citRun t l).2.length = l.length := dbRun_length _ t l

theorem citRun_append (t : CitTable) (xs ys : List (String × Nat × Nat)) :
    citRun t (xs ++ ys) =
      ((citRun (citRun t xs).1 ys).1,
        (citRun t xs).2 ++ (citRun (citRun t xs).1 ys).2) :=
  dbRun_append _ t xs ys

theorem paperRun_length (t : PapersTable) (l : List PaperRec) :
    (paperRun t l).2.length = l.length := dbRun_length _ t l

theorem wikiRun_length (t : WikiTable) (l : List WikiRec) :
    (wikiRun t l).2.length = l.length := dbRun_length _ t l

/-! ## Claim C3 -/

/-- Claim C3: duplicate relation insert is a no-op, not an error.  For every
batch passed to `insert_citations_batch` and every record whose `oci` is
already present in the citations table when its turn comes (whether from a
prior call or from earlier in the same batch), that record leaves the table —
and hence the `total_citations` statistic — unchanged, contributes `None` at
its position of the result rather than raising or aborting, and the batch
still produces one result per record. -/
theorem C3_duplicate_relation_noop (t : CitTable)
    (batch : List (String × Nat × Nat)) (i : Nat) (r : String × Nat × Nat)
    (hget : batch.get? i = some r)
    (hdup : r.1 ∈ ocis (citRun t (batch.take i)).1) :
    insertCitationStep (citRun t (batch.take i)).1 r =
        ((citRun t (batch.take i)).1, none) ∧
    (citRun t (batch.take (i + 1))).1 = (citRun t (batch.take i)).1 ∧
    totalCitations (citRun t (batch.take (i + 1))).1 =
        totalCitations (citRun t (batch.take i)).1 ∧
    (insertCitationsBatch false t batch).2.get? i = some none ∧
    (insertCitationsBatch false t batch).2.length = batch.length := by
  have hi : i < batch.length := (List.get?_eq_some.mp hget).1
  have hstep : insertCitationStep (citRun t (batch.take i)).1 r =
      ((citRun t (batch.take i)).1, none) := by
    simp only [insertCitationStep]
    rw [if_pos hdup]
  have htake : batch.take (i + 1) = batch.take i ++ [r] := by
    rw [List.take_succ]
    simp [← List.get?_eq_getElem?, hget]
  have hstate : (citRun t (batch.take (i + 1))).1 = (citRun t (batch.take i)).1 := by
    rw [htake]
    simp only [citRun] at hstep ⊢
    rw [dbRun_append]
    simp [dbRun, hstep]
  refine ⟨hstep, hstate, by rw [hstate], ?_, ?_⟩
  · have hres := dbRun_get? insertCitationStep t batch i r hget
    simp only [citRun] at hstep
    rw [hstep] at hres
    simpa [insertCitationsBatch, citRun] using hres
  · simp [insertCitationsBatch, citRun_length]

/-- Witness for C3 at a concrete duplicate: the same `oci` twice in one
batch on an empty table. -/
theorem C3_witness :
    (([("a", 1, 2), ("a", 3, 4)] : List (String × Nat × Nat)).get? 1 =
        some ("a", 3, 4)) ∧
    ("a", 3, 4).1 ∈ ocis (citRun CitTable.empty
        (([("a", 1, 2), ("a", 3, 4)] : List (String × Nat × Nat)).take 1)).1 ∧
    (insertCitationsBatch false CitTable.empty
        ([("a", 1, 2), ("a", 3, 4)] : List (String × Nat × Nat))).2.get? 1 =
      some none :=
  ⟨rfl, by decide,
    (C3_duplicate_relation_noop CitTable.empty [("a", 1, 2), ("a", 3, 4)] 1
      ("a", 3, 4) rfl (by decide)).2.2.2.1⟩

/-! ## Claim C10 -/

/-- Claim C10: batch insert result shape.  All three batch-insert methods
return one result per input record — position `i` holding exactly what the
per-record step produced for record `i` (the assigned rowid, the id found
for a duplicate, or `None`) against the table state left by the records
before it — and a failed enclosing transaction yields a list of `None` of
the input length, with the table rolled back unchanged, instead of an
exception reaching the caller. -/
theorem C10_batch_result_shape :
    (∀ (st : PapersTable) (b : List PaperRec),
      (insertPaperBatch false st b).2.length = b.length ∧
      insertPaperBatch true st b = (st, List.replicate b.length none)) ∧
    (∀ (t : CitTable) (b : List (String × Nat × Nat)),
      (insertCitationsBatch false t b).2.length = b.length ∧
      insertCitationsBatch true t b = (t, List.replicate b.length none)) ∧
    (∀ (w : WikiTable) (b : List WikiRec),
      (insertWikiPageBatch false w b).2.length = b.length ∧
      insertWikiPageBatch true w b = (w, List.replicate b.length none)) ∧
    (∀ (st : PapersTable) (b : List PaperRec) (i : Nat) (r : PaperRec),
      b.get? i = some r →
      (insertPaperBatch false st b).2.get? i =
        some (insertPaperStep (paperRun st (b.take i)).1 r).2) ∧
    (∀ (t : CitTable) (b : List (String × Nat × Nat)) (i : Nat)
        (r : String × Nat × Nat), b.get? i = some r →
      (insertCitationsBatch false t b).2.get? i =
        some (insertCitationStep (citRun t (b.take i)).1 r).2) ∧
    (∀ (w : WikiTable) (b : List WikiRec) (i : Nat) (r : WikiRec),
      b.get? i = some r →
      (insertWikiPageBatch false w b).2.get? i =
        some (insertWikiStep (wikiRun w (b.take i)).1 r).2) := by
  refine ⟨fun st b => ⟨?_, ?_⟩, fun t b => ⟨?_, ?_⟩, fun w b => ⟨?_, ?_⟩,
      fun st b i r h => ?_, fun t b i r h => ?_, fun w b i r h => ?_⟩
  · simp [insertPaperBatch, paperRun_length]
  · simp [insertPaperBatch]
  · simp [insertCitationsBatch, citRun_length]
  · simp [insertCitationsBatch]
  · simp [insertWikiPageBatch, wikiRun_length]
  · simp [insertWikiPageBatch]
  · simpa [insertPaperBatch, paperRun] using
      dbRun_get? insertPaperStep st b i r h
  · simpa [insertCitationsBatch, citRun] using
      dbRun_get? insertCitationStep t b i r h
  · simpa [insertWikiPageBatch, wikiRun] using
      dbRun_get? insertWikiStep w b i r h

/-- Witness for C10 at concrete one-record batches (the positional clauses
have a `get?` hypothesis). -/
theorem C10_witness :
    ((insertPaperBatch false PapersTable.empty [PaperRec.blank]).2.get? 0 =
      some (insertPaperStep
        (paperRun PapersTable.empty ([PaperRec.blank].take 0)).1
        PaperRec.blank).2) ∧
    ((insertCitationsBatch false CitTable.empty [("a", 1, 2)]).2.get? 0 =
      some (insertCitationStep
        (citRun CitTable.empty (([("a", 1, 2)] :
          List (String × Nat × Nat)).take 0)).1 ("a", 1, 2)).2) ∧
    ((insertWikiPageBatch false WikiTable.empty [⟨some "Anatomy"⟩]).2.get? 0 =
      some (insertWikiStep
        (wikiRun WikiTable.empty (([⟨some "Anatomy"⟩] :
          List WikiRec).take 0)).1 ⟨some "Anatomy"⟩).2) :=
  ⟨C10_batch_result_shape.2.2.2.1 PapersTable.empty [PaperRec.blank] 0
      PaperRec.blank rfl,
    C10_batch_result_shape.2.2.2.2.1 CitTable.empty [("a", 1, 2)] 0
      ("a", 1, 2) rfl,
    C10_batch_result_shape.2.2.2.2.2 WikiTable.empty [⟨some "Anatomy"⟩] 0
      ⟨some "Anatomy"⟩ rfl⟩

/-! ## Claim C9 -/

set_option maxRecDepth 8192 in
/-- Counterexample to claim C9: the rollback half of the claim holds, but a
failed transaction is NOT propagated and does not stop the run.  With a full
pending buffer of fifty records (the `paper_batch_size` threshold) and a
failing transaction, `insert_paper_batch` returns a list of `None` instead
of raising, and `process_pending_batches` — which never looks at that return
value — clears the pending buffer, bumps the batch statistic and returns
normally, so the crawl loop continues and the batch's data is gone. -/
theorem C9_counterexample :
    insertPaperBatch true PapersTable.empty
        (dedupByDoi (List.replicate 50
          (⟨some "10.1234/x", none, none, none, none, none⟩ : PaperRec))) =
      (PapersTable.empty, List.replicate 1 none) ∧
    (processPendingPapers 50
        ⟨[], [], [], List.replicate 50
          (⟨some "10.1234/x", none, none, none, none, none⟩ : PaperRec),
          [], 0⟩
        PapersTable.empty true).1.pendingPapers = [] ∧
    (processPendingPapers 50
        ⟨[], [], [], List.replicate 50
          (⟨some "10.1234/x", none, none, none, none, none⟩ : PaperRec),
          [], 0⟩
        PapersTable.empty true).2 = PapersTable.empty ∧
    (processPendingPapers 50
        ⟨[], [], [], List.replicate 50
          (⟨some "10.1234/x", none, none, none, none, none⟩ : PaperRec),
          [], 0⟩
        PapersTable.empty true).1.dbBatches = 1 := by
  refine ⟨?_, ?_, ?_, ?_⟩ <;> decide

/-- Claim C9 as amended: when the transaction wrapping `insert_paper_batch`
fails, the whole in-flight batch is rolled back (the table is unchanged — no
partial success), but the error is caught inside the method, which returns
`[None] * len(batch)` instead of raising; `process_pending_batches` ignores
the result, clears its pending buffer and increments the batch counter, so
the orchestrator continues the crawl loop and the batch's data is silently
dropped. -/
theorem C9_amended_rollback_not_propagated :
    (∀ (db : PapersTable) (b : List PaperRec),
      insertPaperBatch true db b = (db, List.replicate b.length none)) ∧
    (∀ (bsz : Nat) (st : CCrawl) (db : PapersTable),
      bsz ≤ st.pendingPapers.length →
      (processPendingPapers bsz st db true).1.pendingPapers = [] ∧
      (processPendingPapers bsz st db true).2 = db ∧
      (processPendingPapers bsz st db true).1.dbBatches = st.dbBatches + 1) := by
  refine ⟨fun db b => ?_, fun bsz st db h => ?_⟩
  · simp [insertPaperBatch]
  · simp [processPendingPapers, if_pos h, insertPaperBatch]

/-- Witness for C9's amended theorem (its second part has a threshold
hypothesis). -/
theorem C9_amended_witness :
    ((50 : Nat) ≤ (List.replicate 50
        (⟨some "10.1234/x", none, none, none, none, none⟩ : PaperRec)).length) ∧
    (processPendingPapers 50
        ⟨[], [], [], List.replicate 50
          (⟨some "10.1234/x", none, none, none, none, none⟩ : PaperRec),
          [], 3⟩
        PapersTable.empty true).1.dbBatches = 3 + 1 :=
  ⟨by decide,
    (C9_amended_rollback_not_propagated.2 50
      ⟨[], [], [], List.replicate 50
        (⟨some "10.1234/x", none, none, none, none, none⟩ : PaperRec),
        [], 3⟩
      PapersTable.empty (by decide)).2.2⟩

/-! ## Claim C1 -/

theorem matchOn_comm (a b : Option String) : matchOn a b = matchOn b a := by
  cases a <;> cases b <;> simp [matchOn, eq_comm]

theorem rowsOk_snoc (rows : List PaperRow) (row : PaperRow) :
    rowsOk (rows ++ [row]) = true ↔
      (rowsOk rows = true ∧ ∀ s ∈ rows,
        matchOn s.doi row.doi = false ∧ matchOn s.pmid row.pmid = false ∧
          matchOn s.openalex row.openalex = false) := by
  induction rows with
  | nil => simp [rowsOk]
  | cons r rest ih =>
    simp only [List.cons_append, rowsOk, Bool.and_eq_true, List.all_eq_true,
      List.append_eq, List.mem_append, List.mem_singleton, List.mem_cons,
      List.not_mem_nil, or_false, Bool.not_eq_true', ih]
    constructor
    · rintro ⟨h1, h2, h3⟩
      refine ⟨⟨fun x hx => h1 x (Or.inl hx), h2⟩, fun s hs => ?_⟩
      rcases hs with rfl | hs
      · have h := h1 row (Or.inr rfl)
        exact ⟨h.1.1, h.1.2, h.2⟩
      · exact h3 s hs
    · rintro ⟨⟨h1, h2⟩, h3⟩
      refine ⟨fun x hx => ?_, h2, fun s hs => h3 s (Or.inr hs)⟩
      rcases hx with hx | rfl
      · exact h1 x hx
      · have h := h3 r (Or.inl rfl)
        exact ⟨⟨h.1, h.2.1⟩, h.2.2⟩


theorem insertPaperStep_rowsOk (st : PapersTable) (r : PaperRec)
    (h : rowsOk st.rows = true) : rowsOk (insertPaperStep st r).1.rows = true := by
  by_cases hc : uniqueConflict st r = true
  · simp [insertPaperStep, hc, h]
  · rw [Bool.not_eq_true] at hc
    simp only [insertPaperStep, hc, Bool.false_eq_true, if_false]
    refine (rowsOk_snoc _ _).mpr ⟨h, fun s hs => ?_⟩
    have hall := List.any_eq_false.mp hc s hs
    simp only [Bool.or_eq_true, not_or, Bool.not_eq_true] at hall
    obtain ⟨⟨h1, h2⟩, h3⟩ := hall
    exact ⟨by rw [matchOn_comm]; exact h1,
      by rw [matchOn_comm]; exact h2,
      by rw [matchOn_comm]; exact h3⟩

theorem paperRun_rowsOk (st : PapersTable) (b : List PaperRec)
    (h : rowsOk st.rows = true) : rowsOk (paperRun st b).1.rows = true := by
  induction b generalizing st with
  | nil => simpa [paperRun, dbRun]
  | cons r rest ih =>
    simp only [paperRun, dbRun]
    exact ih _ (insertPaperStep_rowsOk st r h)

theorem find_row_by_doi (rows : List PaperRow) (row : PaperRow) (v : String)
    (hok : rowsOk rows = true) (hmem : row ∈ rows) (hdoi : row.doi = some v) :
    rows.find? (fun s => s.doi = some v) = some row := by
  induction rows with
  | nil => cases hmem
  | cons r rest ih =>
    simp only [rowsOk, Bool.and_eq_true] at hok
    rcases List.mem_cons.mp hmem with h | h
    · subst h
      exact List.find?_cons_of_pos _ (by simp [hdoi])
    · have hr : r.doi ≠ some v := by
        intro hcontra
        have := List.all_eq_true.mp hok.1 row h
        simp [matchOn, hcontra, hdoi] at this
      rw [List.find?_cons_of_neg _ (by simp [hr])]
      exact ih hok.2 h

/-- Claim C1 as amended: upsert is idempotent only for the three identifier
types with unique indexes.  First, across any sequence of `insert_paper_batch`
calls from a fresh database, no two rows ever share a `doi`, `pmid` or
`openalex` value — one row per distinct doi/pmid/openalex.  Second, a record
whose (non-empty) `doi` matches an existing row inserts nothing and returns
that row's id, `doi` being the first type probed in the lookup priority
order `doi, pmid, openalex, omid, isbn, arxiv`.  (For `omid`, `isbn` and
`arxiv` the schema has no unique index and re-upserting the same identifier
set duplicates the row — see the counterexample.) -/
theorem C1_amended_upsert_unique_ids :
    (∀ (calls : List (Bool × List PaperRec)),
      rowsOk ((calls.foldl
        (fun db c => (insertPaperBatch c.1 db c.2).1)
        PapersTable.empty).rows) = true) ∧
    (∀ (st : PapersTable) (r : PaperRec) (row : PaperRow) (v : String),
      rowsOk st.rows = true → row ∈ st.rows → r.doi = some v →
      row.doi = some v → v ≠ "" →
      insertPaperStep st r = (st, some row.rid)) := by
  constructor
  · have key : ∀ (cs : List (Bool × List PaperRec)) (db : PapersTable),
        rowsOk db.rows = true →
        rowsOk ((cs.foldl
          (fun db c => (insertPaperBatch c.1 db c.2).1) db).rows) = true := by
      intro cs
      induction cs with
      | nil => intro db h; simpa
      | cons c rest ih =>
        intro db h
        simp only [List.foldl_cons]
        apply ih
        cases hb : c.1
        · simpa [insertPaperBatch] using paperRun_rowsOk db c.2 h
        · simpa [insertPaperBatch] using h
    exact fun calls => key calls PapersTable.empty rfl
  · intro st r row v hok hmem hr hrow hne
    have hconf : uniqueConflict st r = true := by
      unfold uniqueConflict
      rw [List.any_eq_true]
      exact ⟨row, hmem, by simp [matchOn, hr, hrow]⟩
    simp only [insertPaperStep, hconf, if_true]
    have hfind : st.rows.find? (fun s => s.doi = some v) = some row :=
      find_row_by_doi st.rows row v hok hmem hrow
    simp [getPaperIdFast, probeId, hr, hne, hfind, Option.orElse]

/-- Witness for C1's amended theorem: a two-call history, and a concrete
duplicate-doi record resolved to the existing row's id. -/
theorem C1_witness :
    rowsOk (([(false, [(⟨some "10.1234/x", none, none, none, none, none⟩ :
        PaperRec)]), (false, [(⟨some "10.1234/x", none, none, none, none,
        none⟩ : PaperRec)])].foldl
      (fun db c => (insertPaperBatch c.1 db c.2).1)
      PapersTable.empty).rows) = true ∧
    insertPaperStep
        ⟨[⟨1, some "10.1234/x", none, none, none, none, none⟩], 2⟩
        ⟨some "10.1234/x", none, none, none, none, none⟩ =
      (⟨[⟨1, some "10.1234/x", none, none, none, none, none⟩], 2⟩,
        some 1) :=
  ⟨C1_amended_upsert_unique_ids.1 _,
    C1_amended_upsert_unique_ids.2
      ⟨[⟨1, some "10.1234/x", none, none, none, none, none⟩], 2⟩
      ⟨some "10.1234/x", none, none, none, none, none⟩
      ⟨1, some "10.1234/x", none, none, none, none, none⟩
      "10.1234/x" (by decide) (by decide) rfl rfl (by decide)⟩

/-- Counterexample to claim C1 as stated: `omid` (like `isbn` and `arxiv`)
has no unique index, so upserting the identical single-identifier record
twice leaves TWO rows with the same identifier set — the store does not end
with one row per distinct identifier set for all six identifier types. -/
theorem C1_counterexample :
    (insertPaperBatch false
        (insertPaperBatch false PapersTable.empty
          [⟨none, none, none, some "br/123456", none, none⟩]).1
        [⟨none, none, none, some "br/123456", none, none⟩]).1.rows.map
      (fun row =>
        (row.doi, row.pmid, row.openalex, row.omid, row.isbn, row.arxiv)) =
      [(none, none, none, some "br/123456", none, none),
       (none, none, none, some "br/123456", none, none)] := by
  rfl

/-! ## Claim C2 -/

theorem regFind_assocSet (m : List (String × Nat)) (k : String) (v : Nat) :
    regFind (assocSet m k v) k = some v := by
  induction m with
  | nil => simp [assocSet, regFind]
  | cons p rest ih =>
    by_cases h : p.1 = k
    · simp [assocSet, h, regFind]
    · simp only [assocSet, if_neg h, regFind, List.find?]
      rw [show (decide (p.1 = k)) = false from decide_eq_false h]
      simpa [regFind] using ih

theorem regFind_cons (p : String × Nat) (rest : List (String × Nat))
    (k : String) :
    regFind (p :: rest) k = if p.1 = k then some p.2 else regFind rest k := by
  by_cases h : p.1 = k
  · simp only [regFind, List.find?,
      show (decide (p.1 = k)) = true from decide_eq_true h]
    simp [h]
  · simp only [regFind, List.find?,
      show (decide (p.1 = k)) = false from decide_eq_false h]
    simp [h, regFind]

theorem regFind_assocSet_ne (m : List (String × Nat)) (k k' : String)
    (v : Nat) (h : k' ≠ k) :
    regFind (assocSet m k v) k' = regFind m k' := by
  induction m with
  | nil => simp [assocSet, regFind_cons, (show k ≠ k' from fun e => h e.symm), regFind]
  | cons p rest ih =>
    by_cases hp : p.1 = k
    · simp only [assocSet, if_pos hp, regFind_cons]
      rw [if_neg (fun e => h e.symm),
        if_neg (fun e => h (by rw [← e]; exact hp))]
    · simp only [assocSet, if_neg hp, regFind_cons, ih]

theorem regFind_foldl_assocSet (ps : List (IdType × String))
    (m : List (String × Nat)) (fresh : Nat) (n : String)
    (h : ∀ p ∈ ps, p.2 ≠ n) :
    regFind (ps.foldl (fun m p => assocSet m p.2 fresh) m) n = regFind m n := by
  induction ps generalizing m with
  | nil => rfl
  | cons p rest ih =>
    rw [List.foldl_cons, ih _ (fun q hq => h q (List.mem_cons_of_mem p hq)),
      regFind_assocSet_ne _ _ _ _ (fun e => h p (List.mem_cons_self p rest) e.symm)]

theorem goodSet_mem (g : List (IdType × String)) (t : IdType) (v : String)
    (p : IdType × String) (hp : p ∈ goodSet g t v) : p ∈ g ∨ p = (t, v) := by
  induction g with
  | nil =>
    simp only [goodSet, List.mem_singleton] at hp
    exact Or.inr hp
  | cons q rest ih =>
    by_cases hq : q.1 = t
    · simp only [goodSet, if_pos hq, List.mem_cons] at hp
      rcases hp with h | h
      · exact Or.inr h
      · exact Or.inl (List.mem_cons_of_mem q h)
    · simp only [goodSet, if_neg hq, List.mem_cons] at hp
      rcases hp with h | h
      · exact Or.inl (h ▸ List.mem_cons_self q rest)
      · rcases ih h with h2 | h2
        · exact Or.inl (List.mem_cons_of_mem q h2)
        · exact Or.inr h2

theorem newLoop1_inr (kwargs good : List (IdType × String)) (st : Registry)
    (g : List (IdType × String)) (h : newLoop1 kwargs good st = .inr g) :
    ∀ p ∈ g, p ∈ good ∨ p.2 ∈ kwargs.map (fun q => q.2) := by
  induction kwargs generalizing good with
  | nil =>
    simp only [newLoop1, Sum.inr.injEq] at h
    subst h
    exact fun p hp => Or.inl hp
  | cons c rest ih =>
    intro p hp
    cases hv : valId c.1 c.2 with
    | none =>
      simp only [newLoop1, hv] at h
      rcases ih good h p hp with h1 | h1
      · exact Or.inl h1
      · exact Or.inr (by simp only [List.map_cons, List.mem_cons]; exact Or.inr h1)
    | some canon =>
      cases hr : regFind st.instances canon with
      | some i => simp [newLoop1, hv, hr] at h
      | none =>
        simp only [newLoop1, hv, hr] at h
        rcases ih (goodSet good c.1 c.2) h p hp with h1 | h1
        · rcases goodSet_mem good c.1 c.2 p h1 with h2 | h2
          · exact Or.inl h2
          · exact Or.inr (by
              simp only [List.map_cons, List.mem_cons]
              exact Or.inl (by rw [h2]))
        · exact Or.inr (by simp only [List.map_cons, List.mem_cons]; exact Or.inr h1)

theorem newLoop2_inr (ids : List String) (good : List (IdType × String))
    (st : Registry) (g : List (IdType × String))
    (h : newLoop2 ids good st = .inr g) :
    ∀ p ∈ g, p ∈ good ∨ regFind st.instances p.2 = none := by
  induction ids generalizing good with
  | nil =>
    simp only [newLoop2, Sum.inr.injEq] at h
    subst h
    exact fun p hp => Or.inl hp
  | cons s rest ih =>
    intro p hp
    cases hv : valIds s with
    | none =>
      simp only [newLoop2, hv] at h
      exact ih good h p hp
    | some tc =>
      obtain ⟨t, canon⟩ := tc
      cases hr : regFind st.instances canon with
      | some i => simp [newLoop2, hv, hr] at h
      | none =>
        simp only [newLoop2, hv, hr] at h
        rcases ih (goodSet good t canon) h p hp with h1 | h1
        · rcases goodSet_mem good t canon p h1 with h2 | h2
          · exact Or.inl h2
          · exact Or.inr (by rw [h2]; exact hr)
        · exact Or.inr h1

theorem paperCall_preserves_bind (kwargs : List (IdType × String))
    (ids : List String) (st : Registry) (n : String) (i : Nat)
    (hb : regFind st.instances n = some i)
    (hk : n ∉ kwargs.map (fun q => q.2)) :
    regFind (paperCall kwargs ids st).1.instances n = some i := by
  cases hl1 : newLoop1 kwargs [] st with
  | inl j => simp only [paperCall, hl1]; exact hb
  | inr g1 =>
    cases hl2 : newLoop2 ids g1 st with
    | inl j => simp only [paperCall, hl1, hl2]; exact hb
    | inr g2 =>
      have hg2 : ∀ p ∈ g2, p.2 ≠ n := by
        intro p hp
        rcases newLoop2_inr ids g1 st g2 hl2 p hp with h1 | h1
        · rcases newLoop1_inr kwargs [] st g1 hl1 p h1 with h3 | h3
          · cases h3
          · exact fun he => hk (he ▸ h3)
        · intro he
          rw [he, hb] at h1
          cases h1
      have hkw : ∀ p ∈ kwargs, p.2 ≠ n := by
        intro p hp he
        exact hk (he ▸ List.mem_map_of_mem (fun q => q.2) hp)
      simp only [paperCall, hl1, hl2, paperCreate]
      rw [regFind_foldl_assocSet kwargs _ _ n hkw,
        regFind_foldl_assocSet g2 _ _ n hg2]
      exact hb

theorem paperCall_pos_bind (s : String) (t : IdType) (n : String)
    (st : Registry) (hv : valIds s = some (t, n)) :
    regFind (paperCall [] [s] st).1.instances n =
      some (paperCall [] [s] st).2 := by
  cases hr : regFind st.instances n with
  | some i => simp [paperCall, newLoop1, newLoop2, hv, hr]
  | none =>
    simp [paperCall, newLoop1, newLoop2, hv, hr, paperCreate, goodSet,
      regFind_assocSet]

theorem paperCall_pos_hit (s : String) (t : IdType) (n : String)
    (st : Registry) (i : Nat) (hv : valIds s = some (t, n))
    (hb : regFind st.instances n = some i) :
    paperCall [] [s] st = (st, i) := by
  simp [paperCall, newLoop1, newLoop2, hv, hb]

theorem paperCalls_preserves_bind
    (mid : List (List (IdType × String) × List String)) (st : Registry)
    (n : String) (i : Nat) (hb : regFind st.instances n = some i)
    (hmid : ∀ c ∈ mid, n ∉ c.1.map (fun q => q.2)) :
    regFind (paperCalls mid st).instances n = some i := by
  induction mid generalizing st with
  | nil => exact hb
  | cons c rest ih =>
    simp only [paperCalls, List.foldl_cons]
    exact ih _
      (paperCall_preserves_bind c.1 c.2 st n i hb
        (hmid c (List.mem_cons_self c rest)))
      (fun d hd => hmid d (List.mem_cons_of_mem c hd))


/-- Counterexample to claim C2: the same DOI denoted two ways yields two
distinct `Paper` instances within one session.  A keyword construction
`Paper(doi='doi:10.1234/x')` caches the instance under the RAW string, while
lookups use the canonical (prefix-stripped) form, so a later positional
`Paper('10.1234/x')` misses the cache and creates a second instance — even
though both strings validate to the same typed identifier. -/
theorem C2_counterexample :
    valId .doi "doi:10.1234/x" = some "10.1234/x" ∧
    valId .doi "10.1234/x" = some "10.1234/x" ∧
    (paperCall [] ["10.1234/x"]
        (paperCall [(.doi, "doi:10.1234/x")] [] Registry.empty).1).2 ≠
      (paperCall [(.doi, "doi:10.1234/x")] [] Registry.empty).2 := by
  exact ⟨rfl, rfl, by decide⟩

/-- Claim C2 as amended: within one crawl session, positional deduplication
holds as long as the canonical string is never passed as an identifier
keyword argument in between: two positional `Paper` constructions whose
strings validate to the same canonical typed identifier — with any number of
intervening constructions, none of whose identifier keyword arguments
carries that exact raw string — return one and the same instance.  The
keyword path caches raw, unvalidated strings (`__init__`, citations.py lines
359-361): a prefixed keyword id is cached under a key no lookup uses (the
counterexample), and an intervening keyword construction whose raw string
equals the canonical id — even one whose value fails validation for its
claimed type — re-binds the cache entry, splitting later positional
constructions of the same DOI from earlier ones (second conjunct). -/
theorem C2_amended_session_dedup :
    (∀ (st : Registry) (s1 s2 : String) (t1 t2 : IdType) (n : String)
        (mid : List (List (IdType × String) × List String)),
      valIds s1 = some (t1, n) → valIds s2 = some (t2, n) →
      (∀ c ∈ mid, n ∉ c.1.map (fun q => q.2)) →
      (paperCall [] [s2] (paperCalls mid (paperCall [] [s1] st).1)).2 =
        (paperCall [] [s1] st).2) ∧
    ((paperCall [] ["10.1234/x"]
        (paperCall [(.pmid, "10.1234/x")] []
          (paperCall [] ["10.1234/x"] Registry.empty).1).1).2 ≠
      (paperCall [] ["10.1234/x"] Registry.empty).2) := by
  constructor
  · intro st s1 s2 t1 t2 n mid h1 h2 hmid
    have hb := paperCall_pos_bind s1 t1 n st h1
    have hb2 := paperCalls_preserves_bind mid _ n _ hb hmid
    rw [paperCall_pos_hit s2 t2 n _ _ h2 hb2]
  · decide

/-- Witness for C2's amended theorem: the same DOI once bare and once with
its `doi:` prefix, both positional, separated by two unrelated intervening
constructions (a keyword one for a different DOI and a positional omid one),
still resolve to one instance. -/
theorem C2_witness :
    valIds "10.1234/x" = some (IdType.doi, "10.1234/x") ∧
    valIds "doi:10.1234/x" = some (IdType.doi, "10.1234/x") ∧
    (∀ c ∈ ([([(IdType.doi, "doi:10.9999/z")], []), ([], ["br/654321"])] :
        List (List (IdType × String) × List String)),
      "10.1234/x" ∉ c.1.map (fun q => q.2)) ∧
    (paperCall [] ["doi:10.1234/x"]
        (paperCalls [([(IdType.doi, "doi:10.9999/z")], []), ([], ["br/654321"])]
          (paperCall [] ["10.1234/x"] Registry.empty).1)).2 =
      (paperCall [] ["10.1234/x"] Registry.empty).2 :=
  ⟨rfl, rfl, by decide,
    C2_amended_session_dedup.1 Registry.empty "10.1234/x" "doi:10.1234/x"
      .doi .doi "10.1234/x"
      [([(.doi, "doi:10.9999/z")], []), ([], ["br/654321"])]
      rfl rfl (by decide)⟩

/-! ## Claim C4 -/

/-- Counterexample to claim C4: not every call records its timestamp.  Two
consecutive `_get` calls from a fresh client, completing at times 100 and
101: the first runs `_manage_rate` (the guard `nrequests % 5 == 0` holds for
`nrequests = 0`) and logs 100, which sets `nrequests = 1`; the second call's
guard `1 % 5 == 0` fails, so 101 is never logged. -/
theorem C4_counterexample :
    (getTrace [(100, []), (101, [])]).times = [100] ∧
    (101 : Int) ∉ (getTrace [(100, []), (101, [])]).times := by
  exact ⟨by decide, by decide⟩

/-- Claim C4 as amended: `_get` runs the rate-management step only when
`self.nrequests % 5 == 0`; on any other call the request log is untouched
and no timestamp is recorded.  Since `_manage_rate` sets `nrequests` to the
post-eviction log length — which is 1 after the very first call, and the
backoff loop is not entered at a rate of 1 request per 600-second window —
only the FIRST request of a session is ever logged, and the sliding-window
check never runs again: after any nonempty call sequence the log holds
exactly the first call's timestamp. -/
theorem C4_amended_rate_log_once :
    (∀ (st : RateState) (t : Int) (clock : List Int),
      st.nrequests % 5 ≠ 0 → getStep st t clock = st) ∧
    (∀ (t : Int) (clock : List Int) (rest : List (Int × List Int)),
      getTrace ((t, clock) :: rest) = ⟨1, [t]⟩) := by
  constructor
  · intro st t clock h
    simp [getStep, h]
  · intro t clock rest
    have hloop : manageLoop clock [t] = [t] := by
      cases clock with
      | nil => rfl
      | cons c cs =>
        simp only [manageLoop]
        rw [if_neg]
        norm_num [rateMax, rateWindow]
    have hfirst : getStep RateState.init t clock = ⟨1, [t]⟩ := by
      have ht : decide (t - rateWindow < t) = true := by
        simp only [decide_eq_true_eq, rateWindow]
        omega
      have ht0 : decide ((0 : Int) < rateWindow) = true := by rfl
      simp [getStep, RateState.init, manageRate, evictOld, List.filter,
        ht, ht0, hloop]
    have hstay : ∀ (cs : List (Int × List Int)),
        cs.foldl (fun st c => getStep st c.1 c.2) (⟨1, [t]⟩ : RateState) =
          ⟨1, [t]⟩ := by
      intro cs
      induction cs with
      | nil => rfl
      | cons c rest ih =>
        simp only [List.foldl_cons]
        rw [show getStep ⟨1, [t]⟩ c.1 c.2 = ⟨1, [t]⟩ from by simp [getStep]]
        exact ih
    simp only [getTrace, List.foldl_cons]
    rw [hfirst, hstay]

/-- Witness for C4's amended theorem at concrete calls. -/
theorem C4_witness :
    ((⟨1, [100]⟩ : RateState).nrequests % 5 ≠ 0) ∧
    getStep ⟨1, [100]⟩ 101 [] = ⟨1, [100]⟩ ∧
    getTrace [(100, []), (101, [])] = ⟨1, [100]⟩ :=
  ⟨by decide,
    C4_amended_rate_log_once.1 ⟨1, [100]⟩ 101 [] (by decide),
    C4_amended_rate_log_once.2 100 [] [(101, [])]⟩

/-! ## Claim C5 -/

/-- Counterexample to claim C5: the later call is NOT guaranteed to start
`min_wait` after the previous round-trip COMPLETED.  With a round-trip of
0.5 s the client sleeps `max(1.1 - 0.5, 0) = 0.6 s`, so the next call may
start only 0.6 s — less than `min_wait = 1.1 s` — after the completion
instant `t0 + dt`. -/
theorem C5_counterexample :
    nextEarliestStart 0 (1 / 2) - (0 + 1 / 2) < minWait := by
  norm_num [nextEarliestStart, sleepTime, minWait]

/-- Claim C5 as amended: the sleep `max(min_wait - dt, 0)` enforces the
minimum spacing relative to the previous call's START: the next call begins
no sooner than `max(min_wait, dt)` — in particular at least `min_wait` —
after the previous round-trip began; and when the round-trip itself took at
least `min_wait`, no extra wait is added at all. -/
theorem C5_amended_min_spacing (t0 dt : ℚ) :
    nextEarliestStart t0 dt - t0 = max minWait dt ∧
    minWait ≤ nextEarliestStart t0 dt - t0 ∧
    (minWait ≤ dt → sleepTime dt = 0) := by
  have h1 : nextEarliestStart t0 dt - t0 = max minWait dt := by
    unfold nextEarliestStart sleepTime
    rcases le_total dt minWait with h | h
    · rw [max_eq_left (sub_nonneg.mpr h), max_eq_left h]
      ring
    · rw [max_eq_right (sub_nonpos.mpr h), max_eq_right h]
      ring
  refine ⟨h1, by rw [h1]; exact le_max_left _ _, fun h => ?_⟩
  unfold sleepTime
  rw [max_eq_right (sub_nonpos.mpr h)]

/-- Witness for C5's amended theorem (its last conjunct carries the
`min_wait ≤ dt` hypothesis): a 2-second round-trip adds no extra wait. -/
theorem C5_witness :
    (minWait ≤ (2 : ℚ)) ∧ sleepTime 2 = 0 ∧
    minWait ≤ nextEarliestStart 0 2 - 0 :=
  ⟨by norm_num [minWait],
    (C5_amended_min_spacing 0 2).2.2 (by norm_num [minWait]),
    (C5_amended_min_spacing 0 2).2.1⟩

/-! ## Claim C6 -/

theorem heapMin_pair_lt (a b : WEntry) (h : a.1 < b.1) :
    heapMin? [a, b] = some a ∧ heapMin? [b, a] = some a := by
  constructor
  · simp only [heapMin?, List.foldl]
    rw [if_neg]
    simp only [wLt, Bool.or_eq_true, decide_eq_true_eq, Bool.and_eq_true]
    rintro (hlt | ⟨heq, _⟩) <;> omega
  · simp only [heapMin?, List.foldl]
    rw [if_pos]
    simp [wLt, h]

/-- Claim C6: frontier priority ordering.  The Wikipedia crawler's frontier
entries carry `calculate_priority = -(reference_count - depth * 10)` and pop
in minimum-first order.  For two queued entries at equal depth the one with
the strictly larger reference count pops first (in either heap order), and
for two entries with equal reference counts the shallower one pops first —
covering the spec's scenarios (ref 10 vs 1 at depth 0; ref 5 at depths 2 vs
0 with penalty 10 per level). -/
theorem C6_priority_ordering :
    (∀ (refs : List (String × Nat)) (nA nB : String) (d : Nat),
      refGet refs nB < refGet refs nA →
      heapMin? [(calcPriorityW refs nA d, nA, d),
          (calcPriorityW refs nB d, nB, d)] =
        some (calcPriorityW refs nA d, nA, d) ∧
      heapMin? [(calcPriorityW refs nB d, nB, d),
          (calcPriorityW refs nA d, nA, d)] =
        some (calcPriorityW refs nA d, nA, d)) ∧
    (∀ (refs : List (String × Nat)) (nA nB : String) (dA dB : Nat),
      refGet refs nA = refGet refs nB → dB < dA →
      heapMin? [(calcPriorityW refs nB dB, nB, dB),
          (calcPriorityW refs nA dA, nA, dA)] =
        some (calcPriorityW refs nB dB, nB, dB) ∧
      heapMin? [(calcPriorityW refs nA dA, nA, dA),
          (calcPriorityW refs nB dB, nB, dB)] =
        some (calcPriorityW refs nB dB, nB, dB)) := by
  constructor
  · intro refs nA nB d h
    have hlt : calcPriorityW refs nA d < calcPriorityW refs nB d := by
      unfold calcPriorityW
      omega
    exact heapMin_pair_lt _ _ hlt
  · intro refs nA nB dA dB heq h
    have hlt : calcPriorityW refs nB dB < calcPriorityW refs nA dA := by
      unfold calcPriorityW
      omega
    exact heapMin_pair_lt _ _ hlt

/-- Witness for C6 at the spec's concrete scenarios: A (ref 10, depth 0)
beats B (ref 1, depth 0); B (ref 5, depth 0) beats A (ref 5, depth 2). -/
theorem C6_witness :
    (heapMin? [(calcPriorityW [("A", 10), ("B", 1)] "A" 0, "A", 0),
        (calcPriorityW [("A", 10), ("B", 1)] "B" 0, "B", 0)] =
      some (calcPriorityW [("A", 10), ("B", 1)] "A" 0, "A", 0)) ∧
    (heapMin? [(calcPriorityW [("A", 5), ("B", 5)] "B" 0, "B", 0),
        (calcPriorityW [("A", 5), ("B", 5)] "A" 2, "A", 2)] =
      some (calcPriorityW [("A", 5), ("B", 5)] "B" 0, "B", 0)) :=
  ⟨(C6_priority_ordering.1 [("A", 10), ("B", 1)] "A" "B" 0 (by decide)).1,
    (C6_priority_ordering.2 [("A", 5), ("B", 5)] "A" "B" 2 0 (by decide)
      (by decide)).1⟩

/-! ## Claim C7 -/

/-- Claim C7: depth ceiling.  An entity discovered at depth strictly greater
than `max_depth` is never pushed onto the frontier.  In the Wikipedia
crawler, links found while crawling a page at depth `d` would enter at
`d + 1`; when `d + 1 > max_depth` the guard `depth < self.max_depth` fails
and the frontier is left untouched.  In the citation crawler,
`queue_citations_for_batch` is called with the discovered depth and its
guard `depth <= self.max_depth` fails for any discovered depth above the
ceiling, so no entry is staged. -/
theorem C7_depth_ceiling :
    (∀ (links processed : List String) (refs : List (String × Nat))
        (queue : List WEntry) (depth maxDepth : Nat),
      maxDepth < depth + 1 →
      wikiQueueLinks links processed refs queue depth maxDepth = queue) ∧
    (∀ (st : CCrawl) (citations : List (String × CPaper × CPaper))
        (depth maxDepth : Nat),
      maxDepth < depth →
      (queueCitationsForBatch st citations depth maxDepth).queue = st.queue) := by
  constructor
  · intro links processed refs queue depth maxDepth h
    unfold wikiQueueLinks
    rw [if_neg (by omega)]
  · intro st citations depth maxDepth h
    have key : ∀ (cits : List (String × CPaper × CPaper))
        (acc : List (String × Nat) × List PaperRec ×
          List (String × String × String) × List CEntry),
        (cits.foldl (queueCitStep st.queue st.processed depth maxDepth)
          acc).2.2.2 = acc.2.2.2 := by
      intro cits
      induction cits with
      | nil => intro acc; rfl
      | cons c rest ih =>
        intro acc
        rw [List.foldl_cons, ih]
        have hd : decide (depth ≤ maxDepth) = false :=
          decide_eq_false (by omega)
        simp [queueCitStep, hd]
    simp [queueCitationsForBatch, key]

/-- Witness for C7 with `max_depth = 1` and a discovery at depth 2, for both
crawler variants. -/
theorem C7_witness :
    wikiQueueLinks ["Physiology"] [] [] [] 1 1 = [] ∧
    (queueCitationsForBatch ⟨[], [], [], [], [], 0⟩
        [("oci1", ⟨"a", PaperRec.blank, 0, 0, 0⟩,
          ⟨"b", PaperRec.blank, 0, 0, 0⟩)] 2 1).queue = [] :=
  ⟨C7_depth_ceiling.1 ["Physiology"] [] [] [] 1 1 (by decide),
    C7_depth_ceiling.2 ⟨[], [], [], [], [], 0⟩
      [("oci1", ⟨"a", PaperRec.blank, 0, 0, 0⟩,
        ⟨"b", PaperRec.blank, 0, 0, 0⟩)] 2 1 (by decide)⟩

/-! ## Claim C8 -/

/-- Counterexample to claim C8: in the Wikipedia crawler a failed page IS
added to the processed set.  Popping the sole queued page and having
`crawl_page` raise (caught, counted in `pages_skipped`, returns `None`),
the loop still executes `self.processed_pages.add(page_name)`, so the page
can never be retried in a later session restored from this state. -/
theorem C8_counterexample :
    (wikiLoopIter ⟨[(-1000, "Physiology", 0)], [], [], 0, 0, 0⟩
        PageOutcome.err 3).processed = ["Physiology"] ∧
    (wikiLoopIter ⟨[(-1000, "Physiology", 0)], [], [], 0, 0, 0⟩
        PageOutcome.err 3).pagesSkipped = 1 := by
  exact ⟨by decide, by decide⟩

/-- Claim C8 as amended: the two crawler variants diverge.  In the citation
crawler the claim holds: an exception inside `crawl_paper` is caught (and
logged) there, `crawl_paper` returns `False`, and the popped id is NOT added
to `processed_paper_ids` — the loop continues with only the pop recorded, so
the paper stays eligible for a future retry.  In the Wikipedia crawler the
failure is likewise caught, logged and counted, and the loop continues — but
`crawl_continuously` adds the page to `processed_pages` unconditionally,
whatever `crawl_page` returned, so a failed page is never retried. -/
theorem C8_amended_failure_handling :
    (∀ (st : CCrawl) (e : CEntry) (rest : List CEntry) (depth maxDepth : Nat),
      heapPopC st.queue = some (e, rest) → e.2.1 ∉ st.processed →
      crawlerLoopIter st none depth maxDepth = { st with queue := rest } ∧
      (crawlerLoopIter st none depth maxDepth).processed = st.processed) ∧
    (∀ (st : WikiCrawl) (e : WEntry) (rest : List WEntry)
        (outcome : PageOutcome) (maxDepth : Nat),
      heapPopW st.queue = some (e, rest) → e.2.1 ∉ st.processed →
      e.2.1 ∈ (wikiLoopIter st outcome maxDepth).processed) := by
  constructor
  · intro st e rest depth maxDepth hpop hmem
    constructor <;> simp [crawlerLoopIter, hpop, hmem]
  · intro st e rest outcome maxDepth hpop hmem
    cases outcome <;> simp [wikiLoopIter, hpop, hmem, crawlPageW]

/-- Witness for C8's amended theorem at one-entry frontiers. -/
theorem C8_witness :
    (crawlerLoopIter ⟨[(0, "X", ⟨"X", PaperRec.blank, 0, 0, 0⟩)],
        [], [], [], [], 0⟩ none 0 3).processed = [] ∧
    "Physiology" ∈ (wikiLoopIter ⟨[(-1000, "Physiology", 0)],
        [], [], 0, 0, 0⟩ PageOutcome.err 3).processed :=
  ⟨(C8_amended_failure_handling.1
      ⟨[(0, "X", ⟨"X", PaperRec.blank, 0, 0, 0⟩)], [], [], [], [], 0⟩
      (0, "X", ⟨"X", PaperRec.blank, 0, 0, 0⟩) [] 0 3 (by decide)
      (by decide)).2,
    C8_amended_failure_handling.2 ⟨[(-1000, "Physiology", 0)], [], [], 0, 0, 0⟩
      (-1000, "Physiology", 0) [] PageOutcome.err 3 (by decide) (by decide)⟩

end Flashcard
